import Mathlib

/-!
# Shallow embedding of `pybench.py` (Clever/flood)

This file embeds the scheduler core of `src/pybench/pybench.py` — the
`Result` record and the `Bench` class (`_makeRequests`, `_callback`,
`_errback`, `_done`, `stop`, `run`) together with the thin `run_test`
driver — as an executable state machine, and proves or refutes the
frozen claims about it.

Modelling conventions:
* Machine time (`time.time()`) is an abstract monotone clock: a `Nat`
  counter in the state, incremented at every call.
* Twisted deferreds are made explicit: every `agent.request` creates a
  `Query` record; a completion (success or failure) is an external
  `Event` delivered to the state machine.  `defer.DeferredList(...)`
  with `_done` attached becomes a `Watcher`: the list of query ids it
  waits on plus a `fired` flag; a watcher fires (invoking `_done`,
  i.e. `RunDeferred.callback`) as soon as all its queries completed.
* `RunDeferred` is modelled by `RunCalls` (how many times
  `RunDeferred.callback` was invoked; Twisted raises
  `AlreadyCalledError` when this exceeds 1) and `RunValue` (the value
  of the first, successful, resolution).
* Python `int` parameters are `Int`; `auth` is `Option String`
  (Python `None` vs a string); `Headers({'Authorization':[auth]})` is
  recorded as the `HeaderAuth` field, stamped onto every issued query.
-/

namespace PyBench

/-- Outcome stored in a `Result`'s `Code` field: HTTP status code
(`_callback` stores `response.code`) or a failure object (`_errback`
stores the `error` value). `Result.__init__` sets `Code = 0`. -/
inductive RCode where
  | num (n : Int)
  | failure (reason : String)
deriving DecidableEq, Repr

/-- `Result` object of `pybench.py`. -/
structure Result where
  Started : Nat
  Finished : Nat
  Elapsed : Int
  Code : RCode
  Timeout : Bool
deriving DecidableEq, Repr

/-- `Result.__init__`. -/
def Result.init : Result :=
  { Started := 0, Finished := 0, Elapsed := 0, Code := RCode.num 0, Timeout := false }

/-- `Result.start`: stamp the dispatch time. -/
def Result.start (r : Result) (now : Nat) : Result :=
  { r with Started := now }

/-- `Result.done`: stamp completion time, elapsed, code and the
`timed_out` flag (default `False` in the source). -/
def Result.done (r : Result) (now : Nat) (code : RCode) (timed_out : Bool) : Result :=
  { r with Finished := now, Elapsed := (now : Int) - (r.Started : Int),
           Code := code, Timeout := timed_out }

/-- One issued request (`agent.request(...)` returning a deferred):
which `Results` entry it belongs to, which agent (slot) issued it, the
`Authorization` header value passed to the transport, and whether the
deferred has fired. -/
structure Query where
  resultIdx : Nat
  agent : Nat
  headersAuth : Option String
  completed : Bool
deriving DecidableEq, Repr

/-- A `defer.DeferredList(self.ActiveQueries.values())` with `_done`
attached (created by `stop()`): fires `_done` once, when all its
queries have completed. -/
structure Watcher where
  queries : List Nat
  fired : Bool
deriving DecidableEq, Repr

/-- The `DelayedCall` returned by `reactor.callLater`. -/
structure TimerCall where
  delay : Int
  active : Bool
deriving DecidableEq, Repr

/-- The state of one `Bench` instance (plus the explicit query /
watcher bookkeeping replacing Twisted's deferred machinery). -/
structure BenchState where
  Requests : Int
  Concurrency : Int
  Timelimit : Option Int
  HeaderAuth : Option String
  Url : String
  Agents : List Nat
  Results : List Result
  ActiveQueries : List (Nat × Nat)
  QueriesMade : Nat
  Queries : List Query
  Watchers : List Watcher
  StopCall : Option TimerCall
  RunCalls : Nat
  RunValue : Option (List Result)
  Stopped : Bool
  clock : Nat
deriving DecidableEq, Repr

/-- `Bench.__init__`.  `Agents` is `range(concurrency)` (empty for a
non-positive count, like Python `range`). -/
def mkBench (requests concurrency : Int) (url : String) (timelimit : Option Int)
    (auth : Option String) : BenchState :=
  { Requests := requests, Concurrency := concurrency, Timelimit := timelimit,
    HeaderAuth := auth, Url := url,
    Agents := List.range concurrency.toNat,
    Results := [], ActiveQueries := [], QueriesMade := 0, Queries := [],
    Watchers := [], StopCall := none, RunCalls := 0, RunValue := none,
    Stopped := false, clock := 0 }

/-- Python dict assignment `self.ActiveQueries[agent] = dfr`. -/
def assocSet (l : List (Nat × Nat)) (k v : Nat) : List (Nat × Nat) :=
  match l with
  | [] => [(k, v)]
  | (k2, v2) :: rest => if k2 = k then (k, v) :: rest else (k2, v2) :: assocSet rest k v

/-- Whether query `q` of state `b` has completed (out-of-range ids,
which never occur, count as completed so that a watcher never waits on
them). -/
def queryCompleted (b : BenchState) (q : Nat) : Bool :=
  match b.Queries.get? q with
  | some qq => qq.completed
  | none => true

/-- A `DeferredList` has fired when all its queries completed. -/
def watcherDue (b : BenchState) (w : Watcher) : Bool :=
  w.queries.all (queryCompleted b)

/-- `Bench._done`: `self.RunDeferred.callback(self.Results)`.  The
first call resolves the deferred with the current `Results`; any
further call just bumps the call counter (Twisted raises
`AlreadyCalledError`). -/
def doneCB (b : BenchState) : BenchState :=
  { b with RunCalls := b.RunCalls + 1,
           RunValue := if b.RunCalls = 0 then some b.Results else b.RunValue }

/-- Fire watcher `i` (run its `_done` callback) if it is due and has
not fired yet. -/
def fireDue (b : BenchState) (i : Nat) : BenchState :=
  match b.Watchers.get? i with
  | some w =>
      if !w.fired && watcherDue b w then
        doneCB { b with Watchers := b.Watchers.set i { w with fired := true } }
      else b
  | none => b

/-- Deliver every due `DeferredList` firing, in creation order (the
order Twisted runs the chained callbacks). -/
def processWatchers (b : BenchState) : BenchState :=
  (List.range b.Watchers.length).foldl fireDue b

/-- The timer-cancellation block at the end of `Bench.stop`:
`if self.StopCall is not None: if self.StopCall.active(): self.StopCall.cancel()`. -/
def cancelTimer (b : BenchState) : BenchState :=
  match b.StopCall with
  | some tc => if tc.active then { b with StopCall := some { tc with active := false } } else b
  | none => b

/-- `Bench.stop`: set `Stopped`, build a `DeferredList` over
`ActiveQueries.values()` with `_done` attached (firing immediately if
all of them already completed), then cancel the stop timer. -/
def stop (b : BenchState) : BenchState :=
  cancelTimer (processWatchers
    { b with Stopped := true,
             Watchers := b.Watchers ++ [{ queries := b.ActiveQueries.map Prod.snd, fired := false }] })

/-- The state changes of one iteration of the `for agent in agents`
loop body of `Bench._makeRequests`, before the budget check: append a
fresh started `Result`, issue the request (create a `Query`, store its
deferred in `ActiveQueries`), increment `QueriesMade`. -/
def dispatchCore (b : BenchState) (a : Nat) : BenchState :=
  { b with
    Results := b.Results ++ [Result.start Result.init b.clock],
    clock := b.clock + 1,
    Queries := b.Queries ++
      [{ resultIdx := b.Results.length, agent := a,
         headersAuth := b.HeaderAuth, completed := false }],
    ActiveQueries := assocSet b.ActiveQueries a b.Queries.length,
    QueriesMade := b.QueriesMade + 1 }

/-- One full iteration of the `for agent in agents` loop body of
`Bench._makeRequests`: the dispatch, then
`if self.QueriesMade >= self.Requests: self.stop()` on the updated
state. -/
def dispatchOne (b : BenchState) (a : Nat) : BenchState :=
  if ((dispatchCore b a).QueriesMade : Int) ≥ (dispatchCore b a).Requests
  then stop (dispatchCore b a) else dispatchCore b a

/-- `Bench._makeRequests`: return immediately when `Stopped`,
otherwise run the dispatch loop over the whole agent list (the
`Stopped` flag is NOT re-checked inside the loop — this is the
source's behaviour). -/
def makeRequests (b : BenchState) (agents : List Nat) : BenchState :=
  if b.Stopped then b else agents.foldl dispatchOne b

/-- The body shared by `Bench._callback` and `Bench._errback` up to
redispathing: mark the query's deferred as fired and run
`result.done(...)` on the stored `Result` (both pass `timed_out`
implicitly as `False`). -/
def completeQuery (b : BenchState) (qi : Nat) (qq : Query) (o : RCode) : BenchState :=
  let b1 : BenchState := { b with Queries := b.Queries.set qi { qq with completed := true } }
  match b1.Results.get? qq.resultIdx with
  | some r =>
      { b1 with Results := b1.Results.set qq.resultIdx (Result.done r b1.clock o false),
                clock := b1.clock + 1 }
  | none => b1

/-- Delivery of one transport completion (`_callback` on success /
`_errback` on failure — both funnel through the same path): complete
the `Result`, call `self._makeRequests([agent])`, then let any
now-complete `DeferredList` fire its `_done`.  Delivering an unknown
or already-completed query id is a no-op (such events cannot occur). -/
def deliver (b : BenchState) (qi : Nat) (o : RCode) : BenchState :=
  match b.Queries.get? qi with
  | none => b
  | some qq =>
      if qq.completed then b
      else processWatchers (makeRequests (completeQuery b qi qq o) [qq.agent])

/-- Firing of the `reactor.callLater(self.Timelimit, self.stop)`
deadline timer: it deactivates and runs `stop()`. -/
def timerFire (b : BenchState) : BenchState :=
  match b.StopCall with
  | some tc =>
      if tc.active then stop { b with StopCall := some { tc with active := false } } else b
  | none => b

/-- The startup block of `Bench.run` before dispatching:
`if self.Timelimit: self.Requests = 5000; self.StopCall = reactor.callLater(...)`
(`Timelimit = 0` is falsy in Python, hence the `t ≠ 0` guard). -/
def runSetup (b : BenchState) : BenchState :=
  match b.Timelimit with
  | some t =>
      if t ≠ 0 then { b with Requests := 5000, StopCall := some { delay := t, active := true } }
      else b
  | none => b

/-- `Bench.run`: startup block, then the initial fan-out
`self._makeRequests(self.Agents)`. -/
def run (b : BenchState) : BenchState :=
  makeRequests (runSetup b) (runSetup b).Agents

/-- External events driving a run: a transport completion for a given
query, or the deadline timer firing. -/
inductive Event where
  | complete (q : Nat) (outcome : RCode)
  | timer
deriving DecidableEq, Repr

/-- One event step. -/
def stepEv (b : BenchState) (e : Event) : BenchState :=
  match e with
  | Event.complete q o => deliver b q o
  | Event.timer => timerFire b

/-- A whole run: `run()` followed by an arbitrary schedule of
completions and timer firings. -/
def runTrace (b0 : BenchState) (evs : List Event) : BenchState :=
  evs.foldl stepEv (run b0)

/-- `run_test(requests, concurrency, url, timelimit, auth, ...)`:
constructs the `Bench` and calls `run()`.  Note its own `auth`
default is `None` (not `""`), and `main` passes `args.A` (also `None`
when `-A` is absent). -/
def run_test (requests concurrency : Int) (url : String) (timelimit : Option Int)
    (auth : Option String) : BenchState :=
  run (mkBench requests concurrency url timelimit auth)

/-- Number of occupied slots: agents whose latest issued request is
still in flight. -/
def occupiedSlots (b : BenchState) : Nat :=
  (b.ActiveQueries.filter (fun p => !(queryCompleted b p.2))).length

/-- Invariant of a run with no time limit whose configuration
satisfies `concurrency ≤ targetRequests` (so the fan-out cannot
overshoot): the budget is never exceeded, `Stopped` holds exactly when
the budget is reached, and the run future resolves only after
stopping. -/
def InvNoTL (r : Int) (b : BenchState) : Prop :=
  b.Requests = r ∧ b.StopCall = none ∧
  b.Results.length = b.QueriesMade ∧
  (b.QueriesMade : Int) ≤ r ∧
  (b.Stopped = true ↔ r ≤ (b.QueriesMade : Int)) ∧
  (b.Stopped = false → b.Watchers = []) ∧
  (b.RunValue.isSome = true → b.Stopped = true)

/-- No stored `Result` is ever marked timed out. -/
def TimeoutFree (b : BenchState) : Prop :=
  ∀ res ∈ b.Results, res.Timeout = false

/-- The configured `Authorization` value is `auth` and every issued
request carried exactly that value in its headers. -/
def AuthInv (auth : Option String) (b : BenchState) : Prop :=
  b.HeaderAuth = auth ∧ ∀ q ∈ b.Queries, q.headersAuth = auth

/-- The `Results` store and the dispatch sequence coincide: one stored
`Result` per issued query, and the `j`-th issued query owns the `j`-th
entry of the store (store order = dispatch order). -/
def StoreShape (b : BenchState) : Prop :=
  b.Results.length = b.Queries.length ∧
  ∀ (j : Nat) (q : Query), b.Queries.get? j = some q → q.resultIdx = j

/-! ## Basic preservation lemmas

`_done` / watcher firing only touches `Watchers`, `RunCalls` and
`RunValue`; timer cancellation only touches `StopCall`; these
projection lemmas record that. -/

lemma fireDue_Results (b : BenchState) (i : Nat) : (fireDue b i).Results = b.Results := by
  unfold fireDue
  split
  · split <;> rfl
  · rfl

lemma fireDue_Queries (b : BenchState) (i : Nat) : (fireDue b i).Queries = b.Queries := by
  unfold fireDue
  split
  · split <;> rfl
  · rfl

lemma fireDue_QueriesMade (b : BenchState) (i : Nat) :
    (fireDue b i).QueriesMade = b.QueriesMade := by
  unfold fireDue
  split
  · split <;> rfl
  · rfl

lemma fireDue_Requests (b : BenchState) (i : Nat) : (fireDue b i).Requests = b.Requests := by
  unfold fireDue
  split
  · split <;> rfl
  · rfl

lemma fireDue_HeaderAuth (b : BenchState) (i : Nat) :
    (fireDue b i).HeaderAuth = b.HeaderAuth := by
  unfold fireDue
  split
  · split <;> rfl
  · rfl

lemma fireDue_Stopped (b : BenchState) (i : Nat) : (fireDue b i).Stopped = b.Stopped := by
  unfold fireDue
  split
  · split <;> rfl
  · rfl

lemma fireDue_StopCall (b : BenchState) (i : Nat) : (fireDue b i).StopCall = b.StopCall := by
  unfold fireDue
  split
  · split <;> rfl
  · rfl

lemma foldl_fireDue_proj {γ : Type} (g : BenchState → γ)
    (hg : ∀ (b : BenchState) (i : Nat), g (fireDue b i) = g b) (l : List Nat) :
    ∀ b : BenchState, g (l.foldl fireDue b) = g b := by
  induction l with
  | nil => intro b; rfl
  | cons i is ih =>
      intro b
      rw [List.foldl_cons, ih, hg]

lemma processWatchers_Results (b : BenchState) : (processWatchers b).Results = b.Results :=
  foldl_fireDue_proj BenchState.Results fireDue_Results _ b

lemma processWatchers_Queries (b : BenchState) : (processWatchers b).Queries = b.Queries :=
  foldl_fireDue_proj BenchState.Queries fireDue_Queries _ b

lemma processWatchers_QueriesMade (b : BenchState) :
    (processWatchers b).QueriesMade = b.QueriesMade :=
  foldl_fireDue_proj BenchState.QueriesMade fireDue_QueriesMade _ b

lemma processWatchers_Requests (b : BenchState) : (processWatchers b).Requests = b.Requests :=
  foldl_fireDue_proj BenchState.Requests fireDue_Requests _ b

lemma processWatchers_HeaderAuth (b : BenchState) :
    (processWatchers b).HeaderAuth = b.HeaderAuth :=
  foldl_fireDue_proj BenchState.HeaderAuth fireDue_HeaderAuth _ b

lemma processWatchers_Stopped (b : BenchState) : (processWatchers b).Stopped = b.Stopped :=
  foldl_fireDue_proj BenchState.Stopped fireDue_Stopped _ b

lemma processWatchers_StopCall (b : BenchState) : (processWatchers b).StopCall = b.StopCall :=
  foldl_fireDue_proj BenchState.StopCall fireDue_StopCall _ b

lemma processWatchers_empty (b : BenchState) (h : b.Watchers = []) :
    processWatchers b = b := by
  unfold processWatchers
  simp [h]

lemma cancelTimer_Results (b : BenchState) : (cancelTimer b).Results = b.Results := by
  unfold cancelTimer
  split
  · split <;> rfl
  · rfl

lemma cancelTimer_Queries (b : BenchState) : (cancelTimer b).Queries = b.Queries := by
  unfold cancelTimer
  split
  · split <;> rfl
  · rfl

lemma cancelTimer_QueriesMade (b : BenchState) :
    (cancelTimer b).QueriesMade = b.QueriesMade := by
  unfold cancelTimer
  split
  · split <;> rfl
  · rfl

lemma cancelTimer_Requests (b : BenchState) : (cancelTimer b).Requests = b.Requests := by
  unfold cancelTimer
  split
  · split <;> rfl
  · rfl

lemma cancelTimer_HeaderAuth (b : BenchState) :
    (cancelTimer b).HeaderAuth = b.HeaderAuth := by
  unfold cancelTimer
  split
  · split <;> rfl
  · rfl

lemma cancelTimer_Stopped (b : BenchState) : (cancelTimer b).Stopped = b.Stopped := by
  unfold cancelTimer
  split
  · split <;> rfl
  · rfl

lemma cancelTimer_Watchers (b : BenchState) : (cancelTimer b).Watchers = b.Watchers := by
  unfold cancelTimer
  split
  · split <;> rfl
  · rfl

lemma cancelTimer_RunValue (b : BenchState) : (cancelTimer b).RunValue = b.RunValue := by
  unfold cancelTimer
  split
  · split <;> rfl
  · rfl

lemma cancelTimer_of_none (b : BenchState) (h : b.StopCall = none) : cancelTimer b = b := by
  unfold cancelTimer
  rw [h]

/-! ## `stop` lemmas -/

lemma stop_Results (b : BenchState) : (stop b).Results = b.Results := by
  unfold stop
  rw [cancelTimer_Results, processWatchers_Results]

lemma stop_Queries (b : BenchState) : (stop b).Queries = b.Queries := by
  unfold stop
  rw [cancelTimer_Queries, processWatchers_Queries]

lemma stop_QueriesMade (b : BenchState) : (stop b).QueriesMade = b.QueriesMade := by
  unfold stop
  rw [cancelTimer_QueriesMade, processWatchers_QueriesMade]

lemma stop_Requests (b : BenchState) : (stop b).Requests = b.Requests := by
  unfold stop
  rw [cancelTimer_Requests, processWatchers_Requests]

lemma stop_HeaderAuth (b : BenchState) : (stop b).HeaderAuth = b.HeaderAuth := by
  unfold stop
  rw [cancelTimer_HeaderAuth, processWatchers_HeaderAuth]

lemma stop_Stopped (b : BenchState) : (stop b).Stopped = true := by
  unfold stop
  rw [cancelTimer_Stopped, processWatchers_Stopped]

lemma stop_StopCall_none (b : BenchState) (h : b.StopCall = none) :
    (stop b).StopCall = none := by
  unfold stop
  rw [cancelTimer_of_none, processWatchers_StopCall]
  · exact h
  · rw [processWatchers_StopCall]; exact h

lemma stop_StopCall_cancel (b : BenchState) (t : Int)
    (h : b.StopCall = some { delay := t, active := true }) :
    (stop b).StopCall = some { delay := t, active := false } := by
  have h2 : ∀ X : BenchState, X.StopCall = some { delay := t, active := true } →
      (cancelTimer X).StopCall = some { delay := t, active := false } := by
    intro X hX
    unfold cancelTimer
    rw [hX]
    rfl
  unfold stop
  apply h2
  rw [processWatchers_StopCall]
  exact h

/-! ## `dispatchOne` lemmas -/

lemma dispatchCore_QueriesMade (b : BenchState) (a : Nat) :
    (dispatchCore b a).QueriesMade = b.QueriesMade + 1 := rfl

lemma dispatchOne_QueriesMade (b : BenchState) (a : Nat) :
    (dispatchOne b a).QueriesMade = b.QueriesMade + 1 := by
  unfold dispatchOne
  split
  · rw [stop_QueriesMade]; rfl
  · rfl

lemma dispatchOne_Results_length (b : BenchState) (a : Nat) :
    (dispatchOne b a).Results.length = b.Results.length + 1 := by
  unfold dispatchOne
  split
  · rw [stop_Results]; simp [dispatchCore]
  · simp [dispatchCore]

lemma dispatchOne_Queries_length (b : BenchState) (a : Nat) :
    (dispatchOne b a).Queries.length = b.Queries.length + 1 := by
  unfold dispatchOne
  split
  · rw [stop_Queries]; simp [dispatchCore]
  · simp [dispatchCore]

lemma dispatchOne_Requests (b : BenchState) (a : Nat) :
    (dispatchOne b a).Requests = b.Requests := by
  unfold dispatchOne
  split
  · rw [stop_Requests]; rfl
  · rfl

lemma dispatchOne_HeaderAuth (b : BenchState) (a : Nat) :
    (dispatchOne b a).HeaderAuth = b.HeaderAuth := by
  unfold dispatchOne
  split
  · rw [stop_HeaderAuth]; rfl
  · rfl

lemma dispatchOne_StopCall_none (b : BenchState) (a : Nat) (h : b.StopCall = none) :
    (dispatchOne b a).StopCall = none := by
  unfold dispatchOne
  split
  · exact stop_StopCall_none _ h
  · exact h

lemma dispatchOne_Stopped_true (b : BenchState) (a : Nat) (h : b.Stopped = true) :
    (dispatchOne b a).Stopped = true := by
  unfold dispatchOne
  split
  · exact stop_Stopped _
  · exact h

lemma dispatchOne_Results (b : BenchState) (a : Nat) :
    (dispatchOne b a).Results = b.Results ++ [Result.start Result.init b.clock] := by
  unfold dispatchOne
  split
  · rw [stop_Results]; rfl
  · rfl

lemma dispatchOne_Queries (b : BenchState) (a : Nat) :
    (dispatchOne b a).Queries = b.Queries ++
      [{ resultIdx := b.Results.length, agent := a,
         headersAuth := b.HeaderAuth, completed := false }] := by
  unfold dispatchOne
  split
  · rw [stop_Queries]; rfl
  · rfl

/-! ## Fold lemmas for the dispatch loop -/

lemma foldl_dispatchOne_QueriesMade (l : List Nat) :
    ∀ b : BenchState, (l.foldl dispatchOne b).QueriesMade = b.QueriesMade + l.length := by
  induction l with
  | nil => intro b; rfl
  | cons a rest ih =>
      intro b
      rw [List.foldl_cons, ih, dispatchOne_QueriesMade]
      simp
      omega

lemma foldl_dispatchOne_Results_length (l : List Nat) :
    ∀ b : BenchState, (l.foldl dispatchOne b).Results.length = b.Results.length + l.length := by
  induction l with
  | nil => intro b; rfl
  | cons a rest ih =>
      intro b
      rw [List.foldl_cons, ih, dispatchOne_Results_length]
      simp
      omega

lemma foldl_dispatchOne_Queries_length (l : List Nat) :
    ∀ b : BenchState, (l.foldl dispatchOne b).Queries.length = b.Queries.length + l.length := by
  induction l with
  | nil => intro b; rfl
  | cons a rest ih =>
      intro b
      rw [List.foldl_cons, ih, dispatchOne_Queries_length]
      simp
      omega

lemma foldl_dispatchOne_proj {γ : Type} (g : BenchState → γ)
    (hg : ∀ (b : BenchState) (a : Nat), g (dispatchOne b a) = g b) (l : List Nat) :
    ∀ b : BenchState, g (l.foldl dispatchOne b) = g b := by
  induction l with
  | nil => intro b; rfl
  | cons a rest ih =>
      intro b
      rw [List.foldl_cons, ih, hg]

lemma foldl_dispatchOne_pres (P : BenchState → Prop)
    (hP : ∀ (b : BenchState) (a : Nat), P b → P (dispatchOne b a)) (l : List Nat) :
    ∀ b : BenchState, P b → P (l.foldl dispatchOne b) := by
  induction l with
  | nil => intro b hb; exact hb
  | cons a rest ih =>
      intro b hb
      rw [List.foldl_cons]
      exact ih _ (hP b a hb)

/-! ## `completeQuery` and `makeRequests` lemmas -/

lemma completeQuery_Results_length (b : BenchState) (qi : Nat) (qq : Query) (o : RCode) :
    (completeQuery b qi qq o).Results.length = b.Results.length := by
  unfold completeQuery
  dsimp only
  split
  · simp
  · rfl

lemma completeQuery_Queries (b : BenchState) (qi : Nat) (qq : Query) (o : RCode) :
    (completeQuery b qi qq o).Queries = b.Queries.set qi { qq with completed := true } := by
  unfold completeQuery
  dsimp only
  split
  · rfl
  · rfl

lemma completeQuery_QueriesMade (b : BenchState) (qi : Nat) (qq : Query) (o : RCode) :
    (completeQuery b qi qq o).QueriesMade = b.QueriesMade := by
  unfold completeQuery
  dsimp only
  split
  · rfl
  · rfl

lemma completeQuery_Stopped (b : BenchState) (qi : Nat) (qq : Query) (o : RCode) :
    (completeQuery b qi qq o).Stopped = b.Stopped := by
  unfold completeQuery
  dsimp only
  split
  · rfl
  · rfl

lemma completeQuery_Watchers (b : BenchState) (qi : Nat) (qq : Query) (o : RCode) :
    (completeQuery b qi qq o).Watchers = b.Watchers := by
  unfold completeQuery
  dsimp only
  split
  · rfl
  · rfl

lemma completeQuery_RunValue (b : BenchState) (qi : Nat) (qq : Query) (o : RCode) :
    (completeQuery b qi qq o).RunValue = b.RunValue := by
  unfold completeQuery
  dsimp only
  split
  · rfl
  · rfl

lemma completeQuery_StopCall (b : BenchState) (qi : Nat) (qq : Query) (o : RCode) :
    (completeQuery b qi qq o).StopCall = b.StopCall := by
  unfold completeQuery
  dsimp only
  split
  · rfl
  · rfl

lemma completeQuery_Requests (b : BenchState) (qi : Nat) (qq : Query) (o : RCode) :
    (completeQuery b qi qq o).Requests = b.Requests := by
  unfold completeQuery
  dsimp only
  split
  · rfl
  · rfl

lemma completeQuery_HeaderAuth (b : BenchState) (qi : Nat) (qq : Query) (o : RCode) :
    (completeQuery b qi qq o).HeaderAuth = b.HeaderAuth := by
  unfold completeQuery
  dsimp only
  split
  · rfl
  · rfl

lemma makeRequests_stopped (b : BenchState) (agents : List Nat) (h : b.Stopped = true) :
    makeRequests b agents = b := by
  unfold makeRequests
  rw [if_pos h]

lemma makeRequests_go (b : BenchState) (agents : List Nat) (h : b.Stopped = false) :
    makeRequests b agents = agents.foldl dispatchOne b := by
  unfold makeRequests
  rw [if_neg]
  rw [h]
  exact Bool.false_ne_true

/-! ## `runSetup` lemmas -/

lemma runSetup_none (b : BenchState) (h : b.Timelimit = none) : runSetup b = b := by
  unfold runSetup
  rw [h]

lemma runSetup_some (b : BenchState) (t : Int) (h : b.Timelimit = some t) (ht : t ≠ 0) :
    runSetup b = { b with Requests := 5000,
                          StopCall := some { delay := t, active := true } } := by
  unfold runSetup
  rw [h]
  simp [ht]

/-! ## The no-time-limit budget invariant (`InvNoTL`) -/

lemma InvNoTL_nil (r : Int) (b : BenchState) (hR : b.Requests = r) (hSC : b.StopCall = none)
    (hS : b.Stopped = false) (hlen : b.Results.length = b.QueriesMade)
    (hW : b.Watchers = []) (hRV : b.RunValue = none)
    (hlt : (b.QueriesMade : Int) < r) : InvNoTL r b := by
  refine ⟨hR, hSC, hlen, le_of_lt hlt, ?_, fun _ => hW, ?_⟩
  · constructor
    · intro h
      rw [hS] at h
      exact absurd h Bool.false_ne_true
    · intro h
      exact absurd h (not_le.mpr hlt)
  · intro h
    rw [hRV] at h
    simp at h

lemma fanout_InvNoTL (r : Int) (as : List Nat) :
    ∀ b : BenchState, b.Requests = r → b.StopCall = none → b.Stopped = false →
    b.Results.length = b.QueriesMade →
    b.Watchers = [] → b.RunValue = none →
    (b.QueriesMade : Int) < r →
    (b.QueriesMade : Int) + as.length ≤ r →
    InvNoTL r (as.foldl dispatchOne b) := by
  induction as with
  | nil =>
      intro b hR hSC hS hlen hW hRV hlt _
      exact InvNoTL_nil r b hR hSC hS hlen hW hRV hlt
  | cons a rest ih =>
      intro b hR hSC hS hlen hW hRV hlt hle
      rw [List.foldl_cons]
      by_cases hb : ((dispatchCore b a).QueriesMade : Int) ≥ (dispatchCore b a).Requests
      · have hd : dispatchOne b a = stop (dispatchCore b a) := by
          unfold dispatchOne
          rw [if_pos hb]
        have hb2 : ((b.QueriesMade : Int) + 1) ≥ r := by
          have : (dispatchCore b a).QueriesMade = b.QueriesMade + 1 := rfl
          have hreq : (dispatchCore b a).Requests = b.Requests := rfl
          rw [this, hreq, hR] at hb
          push_cast at hb
          omega
        have hrest : rest = [] := by
          rw [List.length_cons] at hle
          have h0 : rest.length = 0 := by
            push_cast at hle
            omega
          exact List.length_eq_zero.mp h0
        subst hrest
        rw [List.foldl_nil, hd]
        have hle1 : ((b.QueriesMade : Int) + 1) ≤ r := by
          rw [List.length_cons] at hle
          push_cast at hle
          omega
        refine ⟨?_, ?_, ?_, ?_, ?_, ?_, ?_⟩
        · rw [stop_Requests]
          exact hR
        · exact stop_StopCall_none _ hSC
        · rw [stop_Results, stop_QueriesMade]
          show (b.Results ++ [Result.start Result.init b.clock]).length = b.QueriesMade + 1
          simp [hlen]
        · rw [stop_QueriesMade]
          show ((b.QueriesMade + 1 : Nat) : Int) ≤ r
          push_cast
          omega
        · rw [stop_Stopped, stop_QueriesMade]
          refine iff_of_true rfl ?_
          show r ≤ ((b.QueriesMade + 1 : Nat) : Int)
          push_cast
          omega
        · intro hcontra
          rw [stop_Stopped] at hcontra
          simp at hcontra
        · intro _
          exact stop_Stopped _
      · have hd : dispatchOne b a = dispatchCore b a := by
          unfold dispatchOne
          rw [if_neg hb]
        rw [hd]
        have hlt2 : ((b.QueriesMade : Int) + 1) < r := by
          have h1 : (dispatchCore b a).QueriesMade = b.QueriesMade + 1 := rfl
          have h2 : (dispatchCore b a).Requests = b.Requests := rfl
          rw [h1, h2, hR] at hb
          push_cast at hb
          omega
        apply ih (dispatchCore b a)
        · exact hR
        · exact hSC
        · exact hS
        · show (b.Results ++ [Result.start Result.init b.clock]).length = b.QueriesMade + 1
          simp [hlen]
        · exact hW
        · exact hRV
        · show ((b.QueriesMade + 1 : Nat) : Int) < r
          push_cast
          omega
        · show ((b.QueriesMade + 1 : Nat) : Int) + rest.length ≤ r
          rw [List.length_cons] at hle
          push_cast at hle ⊢
          omega

lemma processWatchers_InvNoTL (r : Int) (b : BenchState) (h : InvNoTL r b) :
    InvNoTL r (processWatchers b) := by
  obtain ⟨hR, hSC, hlen, hle, hiff, hWe, hRV⟩ := h
  cases hS : b.Stopped with
  | false =>
      rw [processWatchers_empty b (hWe hS)]
      exact ⟨hR, hSC, hlen, hle, hiff, hWe, hRV⟩
  | true =>
      refine ⟨?_, ?_, ?_, ?_, ?_, ?_, ?_⟩
      · rw [processWatchers_Requests]; exact hR
      · rw [processWatchers_StopCall]; exact hSC
      · rw [processWatchers_Results, processWatchers_QueriesMade]; exact hlen
      · rw [processWatchers_QueriesMade]; exact hle
      · rw [processWatchers_Stopped, processWatchers_QueriesMade]; exact hiff
      · intro hcontra
        rw [processWatchers_Stopped, hS] at hcontra
        simp at hcontra
      · intro _
        rw [processWatchers_Stopped]
        exact hS

lemma completeQuery_InvNoTL (r : Int) (b : BenchState) (qi : Nat) (qq : Query) (o : RCode)
    (h : InvNoTL r b) : InvNoTL r (completeQuery b qi qq o) := by
  obtain ⟨hR, hSC, hlen, hle, hiff, hWe, hRV⟩ := h
  refine ⟨?_, ?_, ?_, ?_, ?_, ?_, ?_⟩
  · rw [completeQuery_Requests]; exact hR
  · rw [completeQuery_StopCall]; exact hSC
  · rw [completeQuery_Results_length, completeQuery_QueriesMade]; exact hlen
  · rw [completeQuery_QueriesMade]; exact hle
  · rw [completeQuery_Stopped, completeQuery_QueriesMade]; exact hiff
  · rw [completeQuery_Stopped, completeQuery_Watchers]; exact hWe
  · rw [completeQuery_RunValue, completeQuery_Stopped]; exact hRV

lemma deliver_InvNoTL (r : Int) (b : BenchState) (qi : Nat) (o : RCode)
    (h : InvNoTL r b) : InvNoTL r (deliver b qi o) := by
  unfold deliver
  split
  · exact h
  · split
    · exact h
    · rename_i qq hq hnc
      apply processWatchers_InvNoTL
      have h1 := completeQuery_InvNoTL r b qi qq o h
      cases hS : (completeQuery b qi qq o).Stopped with
      | true =>
          rw [makeRequests_stopped _ _ hS]
          exact h1
      | false =>
          rw [makeRequests_go _ _ hS]
          obtain ⟨hR1, hSC1, hlen1, hle1, hiff1, hWe1, hRV1⟩ := h1
          have hlt1 : ((completeQuery b qi qq o).QueriesMade : Int) < r := by
            by_contra hcon
            push_neg at hcon
            have := hiff1.mpr hcon
            rw [hS] at this
            simp at this
          have hRVn : (completeQuery b qi qq o).RunValue = none := by
            cases hrv : (completeQuery b qi qq o).RunValue with
            | none => rfl
            | some v =>
                have : (completeQuery b qi qq o).RunValue.isSome = true := by
                  rw [hrv]; rfl
                have := hRV1 this
                rw [hS] at this
                simp at this
          apply fanout_InvNoTL r [qq.agent] _ hR1 hSC1 hS hlen1 (hWe1 hS) hRVn hlt1
          show ((completeQuery b qi qq o).QueriesMade : Int) + (1 : Nat) ≤ r
          push_cast
          omega

lemma timerFire_InvNoTL (r : Int) (b : BenchState) (h : InvNoTL r b) :
    InvNoTL r (timerFire b) := by
  unfold timerFire
  rw [h.2.1]
  exact h

lemma stepEv_InvNoTL (r : Int) (b : BenchState) (e : Event) (h : InvNoTL r b) :
    InvNoTL r (stepEv b e) := by
  cases e with
  | complete q o => exact deliver_InvNoTL r b q o h
  | timer => exact timerFire_InvNoTL r b h

lemma foldl_stepEv_InvNoTL (r : Int) (evs : List Event) :
    ∀ b : BenchState, InvNoTL r b → InvNoTL r (evs.foldl stepEv b) := by
  induction evs with
  | nil => intro b h; exact h
  | cons e rest ih =>
      intro b h
      rw [List.foldl_cons]
      exact ih _ (stepEv_InvNoTL r b e h)

lemma run_InvNoTL (r c : Int) (url : String) (auth : Option String)
    (h1 : 1 ≤ c) (h2 : c ≤ r) :
    InvNoTL r (run (mkBench r c url none auth)) := by
  have hsetup : runSetup (mkBench r c url none auth) = mkBench r c url none auth :=
    runSetup_none _ rfl
  unfold run
  rw [hsetup]
  rw [makeRequests_go _ _ rfl]
  apply fanout_InvNoTL r (List.range c.toNat) (mkBench r c url none auth) rfl rfl rfl rfl rfl rfl
  · show (0 : Int) < r
    omega
  · show ((0 : Nat) : Int) + (List.range c.toNat).length ≤ r
    rw [List.length_range]
    have hc : ((c.toNat : Nat) : Int) = c := Int.toNat_of_nonneg (by omega)
    push_cast at hc ⊢
    omega

lemma runTrace_InvNoTL (r c : Int) (url : String) (auth : Option String) (evs : List Event)
    (h1 : 1 ≤ c) (h2 : c ≤ r) :
    InvNoTL r (runTrace (mkBench r c url none auth) evs) := by
  unfold runTrace
  exact foldl_stepEv_InvNoTL r evs _ (run_InvNoTL r c url auth h1 h2)

/-! ## `Results.length = QueriesMade` for every run (any configuration) -/

lemma dispatchOne_LenQM (b : BenchState) (a : Nat)
    (h : b.Results.length = b.QueriesMade) :
    (dispatchOne b a).Results.length = (dispatchOne b a).QueriesMade := by
  rw [dispatchOne_Results_length, dispatchOne_QueriesMade, h]

lemma makeRequests_LenQM (b : BenchState) (agents : List Nat)
    (h : b.Results.length = b.QueriesMade) :
    (makeRequests b agents).Results.length = (makeRequests b agents).QueriesMade := by
  cases hS : b.Stopped with
  | true => rw [makeRequests_stopped _ _ hS]; exact h
  | false =>
      rw [makeRequests_go _ _ hS, foldl_dispatchOne_Results_length,
          foldl_dispatchOne_QueriesMade, h]

lemma processWatchers_LenQM (b : BenchState)
    (h : b.Results.length = b.QueriesMade) :
    (processWatchers b).Results.length = (processWatchers b).QueriesMade := by
  rw [processWatchers_Results, processWatchers_QueriesMade]; exact h

lemma deliver_LenQM (b : BenchState) (qi : Nat) (o : RCode)
    (h : b.Results.length = b.QueriesMade) :
    (deliver b qi o).Results.length = (deliver b qi o).QueriesMade := by
  unfold deliver
  split
  · exact h
  · split
    · exact h
    · apply processWatchers_LenQM
      apply makeRequests_LenQM
      rw [completeQuery_Results_length, completeQuery_QueriesMade]
      exact h

lemma stop_LenQM (b : BenchState) (h : b.Results.length = b.QueriesMade) :
    (stop b).Results.length = (stop b).QueriesMade := by
  rw [stop_Results, stop_QueriesMade]; exact h

lemma timerFire_LenQM (b : BenchState) (h : b.Results.length = b.QueriesMade) :
    (timerFire b).Results.length = (timerFire b).QueriesMade := by
  unfold timerFire
  split
  · split
    · rw [stop_Results, stop_QueriesMade]; exact h
    · exact h
  · exact h

lemma stepEv_LenQM (b : BenchState) (e : Event)
    (h : b.Results.length = b.QueriesMade) :
    (stepEv b e).Results.length = (stepEv b e).QueriesMade := by
  cases e with
  | complete q o => exact deliver_LenQM b q o h
  | timer => exact timerFire_LenQM b h

lemma runSetup_LenQM (b : BenchState) (h : b.Results.length = b.QueriesMade) :
    (runSetup b).Results.length = (runSetup b).QueriesMade := by
  unfold runSetup
  split
  · split
    · exact h
    · exact h
  · exact h

lemma run_LenQM (b : BenchState) (h : b.Results.length = b.QueriesMade) :
    (run b).Results.length = (run b).QueriesMade := by
  unfold run
  exact makeRequests_LenQM _ _ (runSetup_LenQM b h)

lemma foldl_stepEv_pres (P : BenchState → Prop)
    (hP : ∀ (b : BenchState) (e : Event), P b → P (stepEv b e)) (evs : List Event) :
    ∀ b : BenchState, P b → P (evs.foldl stepEv b) := by
  induction evs with
  | nil => intro b h; exact h
  | cons e rest ih =>
      intro b h
      rw [List.foldl_cons]
      exact ih _ (hP b e h)

lemma runTrace_LenQM (b0 : BenchState) (evs : List Event)
    (h : b0.Results.length = b0.QueriesMade) :
    (runTrace b0 evs).Results.length = (runTrace b0 evs).QueriesMade := by
  unfold runTrace
  exact foldl_stepEv_pres (fun b => b.Results.length = b.QueriesMade)
    stepEv_LenQM evs _ (run_LenQM b0 h)

/-! ## `TimeoutFree`: no `Result` is ever marked timed out -/

lemma dispatchOne_TimeoutFree (b : BenchState) (a : Nat)
    (h : TimeoutFree b) : TimeoutFree (dispatchOne b a) := by
  intro res hres
  rw [dispatchOne_Results] at hres
  rcases List.mem_append.mp hres with hold | hnew
  · exact h res hold
  · rw [List.mem_singleton] at hnew
    rw [hnew]
    rfl

lemma makeRequests_TimeoutFree (b : BenchState) (agents : List Nat)
    (h : TimeoutFree b) : TimeoutFree (makeRequests b agents) := by
  cases hS : b.Stopped with
  | true => rw [makeRequests_stopped _ _ hS]; exact h
  | false =>
      rw [makeRequests_go _ _ hS]
      exact foldl_dispatchOne_pres TimeoutFree dispatchOne_TimeoutFree agents b h

lemma processWatchers_TimeoutFree (b : BenchState)
    (h : TimeoutFree b) : TimeoutFree (processWatchers b) := by
  intro res hres
  rw [processWatchers_Results] at hres
  exact h res hres

lemma completeQuery_TimeoutFree (b : BenchState) (qi : Nat) (qq : Query) (o : RCode)
    (h : TimeoutFree b) : TimeoutFree (completeQuery b qi qq o) := by
  intro res hres
  unfold completeQuery at hres
  dsimp only at hres
  split at hres
  · rcases List.mem_or_eq_of_mem_set hres with hold | hnew
    · exact h res hold
    · rw [hnew]
      rfl
  · exact h res hres

lemma stop_TimeoutFree (b : BenchState) (h : TimeoutFree b) : TimeoutFree (stop b) := by
  intro res hres
  rw [stop_Results] at hres
  exact h res hres

lemma deliver_TimeoutFree (b : BenchState) (qi : Nat) (o : RCode)
    (h : TimeoutFree b) : TimeoutFree (deliver b qi o) := by
  unfold deliver
  split
  · exact h
  · split
    · exact h
    · exact processWatchers_TimeoutFree _
        (makeRequests_TimeoutFree _ _ (completeQuery_TimeoutFree b qi _ o h))

lemma timerFire_TimeoutFree (b : BenchState) (h : TimeoutFree b) :
    TimeoutFree (timerFire b) := by
  unfold timerFire
  split
  · split
    · apply stop_TimeoutFree
      intro res hres
      exact h res hres
    · exact h
  · exact h

lemma stepEv_TimeoutFree (b : BenchState) (e : Event) (h : TimeoutFree b) :
    TimeoutFree (stepEv b e) := by
  cases e with
  | complete q o => exact deliver_TimeoutFree b q o h
  | timer => exact timerFire_TimeoutFree b h

lemma runSetup_TimeoutFree (b : BenchState) (h : TimeoutFree b) :
    TimeoutFree (runSetup b) := by
  unfold runSetup
  split
  · split
    · intro res hres; exact h res hres
    · exact h
  · exact h

lemma run_TimeoutFree (b : BenchState) (h : TimeoutFree b) : TimeoutFree (run b) := by
  unfold run
  exact makeRequests_TimeoutFree _ _ (runSetup_TimeoutFree b h)

lemma runTrace_TimeoutFree (b0 : BenchState) (evs : List Event)
    (h : TimeoutFree b0) : TimeoutFree (runTrace b0 evs) := by
  unfold runTrace
  exact foldl_stepEv_pres TimeoutFree stepEv_TimeoutFree evs _ (run_TimeoutFree b0 h)

/-! ## `AuthInv`: every issued request carries the configured auth value -/

lemma dispatchOne_AuthInv (auth : Option String) (b : BenchState) (a : Nat)
    (h : AuthInv auth b) : AuthInv auth (dispatchOne b a) := by
  obtain ⟨hH, hQ⟩ := h
  refine ⟨?_, ?_⟩
  · rw [dispatchOne_HeaderAuth]; exact hH
  · intro q hq
    rw [dispatchOne_Queries] at hq
    rcases List.mem_append.mp hq with hold | hnew
    · exact hQ q hold
    · rw [List.mem_singleton] at hnew
      rw [hnew]
      exact hH

lemma makeRequests_AuthInv (auth : Option String) (b : BenchState) (agents : List Nat)
    (h : AuthInv auth b) : AuthInv auth (makeRequests b agents) := by
  cases hS : b.Stopped with
  | true => rw [makeRequests_stopped _ _ hS]; exact h
  | false =>
      rw [makeRequests_go _ _ hS]
      exact foldl_dispatchOne_pres (AuthInv auth) (dispatchOne_AuthInv auth) agents b h

lemma processWatchers_AuthInv (auth : Option String) (b : BenchState)
    (h : AuthInv auth b) : AuthInv auth (processWatchers b) := by
  obtain ⟨hH, hQ⟩ := h
  refine ⟨?_, ?_⟩
  · rw [processWatchers_HeaderAuth]; exact hH
  · intro q hq
    rw [processWatchers_Queries] at hq
    exact hQ q hq

lemma completeQuery_AuthInv (auth : Option String) (b : BenchState) (qi : Nat) (qq : Query)
    (o : RCode) (hget : b.Queries.get? qi = some qq)
    (h : AuthInv auth b) : AuthInv auth (completeQuery b qi qq o) := by
  obtain ⟨hH, hQ⟩ := h
  refine ⟨?_, ?_⟩
  · rw [completeQuery_HeaderAuth]; exact hH
  · intro q hq
    rw [completeQuery_Queries] at hq
    rcases List.mem_or_eq_of_mem_set hq with hold | hnew
    · exact hQ q hold
    · rw [hnew]
      show qq.headersAuth = auth
      exact hQ qq (List.get?_mem hget)

lemma stop_AuthInv (auth : Option String) (b : BenchState)
    (h : AuthInv auth b) : AuthInv auth (stop b) := by
  obtain ⟨hH, hQ⟩ := h
  refine ⟨?_, ?_⟩
  · rw [stop_HeaderAuth]; exact hH
  · intro q hq
    rw [stop_Queries] at hq
    exact hQ q hq

lemma deliver_AuthInv (auth : Option String) (b : BenchState) (qi : Nat) (o : RCode)
    (h : AuthInv auth b) : AuthInv auth (deliver b qi o) := by
  unfold deliver
  split
  · exact h
  · split
    · exact h
    · rename_i qq hget hnc
      exact processWatchers_AuthInv auth _
        (makeRequests_AuthInv auth _ _ (completeQuery_AuthInv auth b qi qq o hget h))

lemma timerFire_AuthInv (auth : Option String) (b : BenchState)
    (h : AuthInv auth b) : AuthInv auth (timerFire b) := by
  unfold timerFire
  split
  · split
    · apply stop_AuthInv
      exact ⟨h.1, h.2⟩
    · exact h
  · exact h

lemma stepEv_AuthInv (auth : Option String) (b : BenchState) (e : Event)
    (h : AuthInv auth b) : AuthInv auth (stepEv b e) := by
  cases e with
  | complete q o => exact deliver_AuthInv auth b q o h
  | timer => exact timerFire_AuthInv auth b h

lemma runSetup_AuthInv (auth : Option String) (b : BenchState)
    (h : AuthInv auth b) : AuthInv auth (runSetup b) := by
  unfold runSetup
  split
  · split
    · exact ⟨h.1, h.2⟩
    · exact h
  · exact h

lemma run_AuthInv (auth : Option String) (b : BenchState)
    (h : AuthInv auth b) : AuthInv auth (run b) := by
  unfold run
  exact makeRequests_AuthInv auth _ _ (runSetup_AuthInv auth b h)

lemma runTrace_AuthInv (auth : Option String) (b0 : BenchState) (evs : List Event)
    (h : AuthInv auth b0) : AuthInv auth (runTrace b0 evs) := by
  unfold runTrace
  exact foldl_stepEv_pres (AuthInv auth) (stepEv_AuthInv auth) evs _ (run_AuthInv auth b0 h)

/-! ## `StoreShape`: store order is dispatch order -/

lemma dispatchOne_StoreShape (b : BenchState) (a : Nat)
    (h : StoreShape b) : StoreShape (dispatchOne b a) := by
  obtain ⟨hlen, hidx⟩ := h
  refine ⟨?_, ?_⟩
  · rw [dispatchOne_Results_length, dispatchOne_Queries_length, hlen]
  · intro j q hq
    rw [dispatchOne_Queries] at hq
    rcases lt_trichotomy j b.Queries.length with hlt | heq | hgt
    · rw [List.get?_append hlt] at hq
      exact hidx j q hq
    · subst heq
      rw [List.get?_concat_length] at hq
      injection hq with hq2
      rw [← hq2]
      show b.Results.length = b.Queries.length
      exact hlen
    · have hnone : (b.Queries ++
          [({ resultIdx := b.Results.length, agent := a,
              headersAuth := b.HeaderAuth, completed := false } : Query)]).get? j = none := by
        apply List.get?_eq_none.mpr
        simp
        omega
      rw [hnone] at hq
      exact absurd hq (Option.noConfusion)

lemma makeRequests_StoreShape (b : BenchState) (agents : List Nat)
    (h : StoreShape b) : StoreShape (makeRequests b agents) := by
  cases hS : b.Stopped with
  | true => rw [makeRequests_stopped _ _ hS]; exact h
  | false =>
      rw [makeRequests_go _ _ hS]
      exact foldl_dispatchOne_pres StoreShape dispatchOne_StoreShape agents b h

lemma processWatchers_StoreShape (b : BenchState)
    (h : StoreShape b) : StoreShape (processWatchers b) := by
  obtain ⟨hlen, hidx⟩ := h
  refine ⟨?_, ?_⟩
  · rw [processWatchers_Results, processWatchers_Queries]; exact hlen
  · intro j q hq
    rw [processWatchers_Queries] at hq
    exact hidx j q hq

lemma stop_StoreShape (b : BenchState) (h : StoreShape b) : StoreShape (stop b) := by
  obtain ⟨hlen, hidx⟩ := h
  refine ⟨?_, ?_⟩
  · rw [stop_Results, stop_Queries]; exact hlen
  · intro j q hq
    rw [stop_Queries] at hq
    exact hidx j q hq

lemma completeQuery_StoreShape (b : BenchState) (qi : Nat) (qq : Query) (o : RCode)
    (hget : b.Queries.get? qi = some qq)
    (h : StoreShape b) : StoreShape (completeQuery b qi qq o) := by
  obtain ⟨hlen, hidx⟩ := h
  refine ⟨?_, ?_⟩
  · rw [completeQuery_Results_length, completeQuery_Queries, List.length_set]; exact hlen
  · intro j q hq
    rw [completeQuery_Queries] at hq
    by_cases hji : qi = j
    · subst hji
      rw [List.get?_set_eq] at hq
      rw [hget] at hq
      injection hq with hq2
      rw [← hq2]
      show qq.resultIdx = qi
      exact hidx qi qq hget
    · rw [List.get?_set_ne _ _ hji] at hq
      exact hidx j q hq

lemma deliver_StoreShape (b : BenchState) (qi : Nat) (o : RCode)
    (h : StoreShape b) : StoreShape (deliver b qi o) := by
  unfold deliver
  split
  · exact h
  · split
    · exact h
    · rename_i qq hget hnc
      exact processWatchers_StoreShape _
        (makeRequests_StoreShape _ _ (completeQuery_StoreShape b qi qq o hget h))

lemma timerFire_StoreShape (b : BenchState) (h : StoreShape b) :
    StoreShape (timerFire b) := by
  unfold timerFire
  split
  · split
    · apply stop_StoreShape
      exact ⟨h.1, h.2⟩
    · exact h
  · exact h

lemma stepEv_StoreShape (b : BenchState) (e : Event) (h : StoreShape b) :
    StoreShape (stepEv b e) := by
  cases e with
  | complete q o => exact deliver_StoreShape b q o h
  | timer => exact timerFire_StoreShape b h

lemma runSetup_StoreShape (b : BenchState) (h : StoreShape b) :
    StoreShape (runSetup b) := by
  unfold runSetup
  split
  · split
    · exact ⟨h.1, h.2⟩
    · exact h
  · exact h

lemma run_StoreShape (b : BenchState) (h : StoreShape b) : StoreShape (run b) := by
  unfold run
  exact makeRequests_StoreShape _ _ (runSetup_StoreShape b h)

lemma runTrace_StoreShape (b0 : BenchState) (evs : List Event)
    (h : StoreShape b0) : StoreShape (runTrace b0 evs) := by
  unfold runTrace
  exact foldl_stepEv_pres StoreShape stepEv_StoreShape evs _ (run_StoreShape b0 h)

/-! ## Claim theorems -/

/-- Claim C1 (what the code actually does at the claimed input): with
`requests = 3, concurrency = 5`, the initial fan-out dispatches FIVE
requests, not three — the `for agent in agents` loop of
`_makeRequests` keeps dispatching after `stop()` is called mid-loop,
since `Stopped` is only checked on function entry.  All five slots
receive work and the `Results` store gets five entries before any
completion is delivered. -/
theorem c1_scenarioC_overdispatch :
    (run (mkBench 3 5 "u" none (some ""))).QueriesMade = 5 ∧
    (run (mkBench 3 5 "u" none (some ""))).Results.length = 5 ∧
    (run (mkBench 3 5 "u" none (some ""))).ActiveQueries.length = 5 ∧
    (run (mkBench 3 5 "u" none (some ""))).Stopped = true := by
  decide

/-- Claim C2 (what the code actually does): `stop()` is not guarded —
with `requests = 3, concurrency = 5` the fan-out loop calls `stop()`
three times (at `QueriesMade = 3, 4, 5`), registering `_done` on three
`DeferredList`s, so after all five requests complete,
`RunDeferred.callback` has been invoked three times (Twisted raises
`AlreadyCalledError` from the second invocation on). -/
theorem c2_stop_resolves_run_future_thrice :
    (runTrace (mkBench 3 5 "u" none (some ""))
      [Event.complete 0 (RCode.num 200), Event.complete 1 (RCode.num 200),
       Event.complete 2 (RCode.num 200), Event.complete 3 (RCode.num 200),
       Event.complete 4 (RCode.num 200)]).RunCalls = 3 := by
  decide

/-- Claim C3 (what the code actually does): with
`requests = 3, concurrency = 5`, if the three requests that were in
flight at the FIRST `stop()` call complete first, the first
`DeferredList` fires `_done` and resolves the run future while the two
requests dispatched after that `stop()` are still in flight: at
resolution the occupied-slot count is 2, not 0. -/
theorem c3_resolves_while_requests_in_flight :
    (runTrace (mkBench 3 5 "u" none (some ""))
      [Event.complete 0 (RCode.num 200), Event.complete 1 (RCode.num 200),
       Event.complete 2 (RCode.num 200)]).RunValue.isSome = true ∧
    occupiedSlots (runTrace (mkBench 3 5 "u" none (some ""))
      [Event.complete 0 (RCode.num 200), Event.complete 1 (RCode.num 200),
       Event.complete 2 (RCode.num 200)]) = 2 := by
  decide

/-- Claim C4, counterexample: a run with no time limit,
`targetRequests = 2` and `concurrency = 4` reaches `Done` (the run
future is resolved) with 4 requests dispatched and 4 entries in the
store — not `targetRequests = 2`. -/
theorem c4_counterexample :
    (runTrace (mkBench 2 4 "u" none (some ""))
      [Event.complete 0 (RCode.num 200), Event.complete 1 (RCode.num 200),
       Event.complete 2 (RCode.num 200), Event.complete 3 (RCode.num 200)]).RunValue.isSome
      = true ∧
    (runTrace (mkBench 2 4 "u" none (some ""))
      [Event.complete 0 (RCode.num 200), Event.complete 1 (RCode.num 200),
       Event.complete 2 (RCode.num 200), Event.complete 3 (RCode.num 200)]).QueriesMade = 4 ∧
    (runTrace (mkBench 2 4 "u" none (some ""))
      [Event.complete 0 (RCode.num 200), Event.complete 1 (RCode.num 200),
       Event.complete 2 (RCode.num 200), Event.complete 3 (RCode.num 200)]).Results.length
      = 4 := by
  decide

/-- Claim C4 (amended): for every run with no time limit and
`1 ≤ concurrency ≤ targetRequests`, whenever the run future has been
resolved the total number of dispatched requests equals
`targetRequests` and the store holds exactly `targetRequests`
entries. -/
theorem c4_budget_invariant (r c : Int) (url : String) (auth : Option String)
    (evs : List Event) (h1 : 1 ≤ c) (h2 : c ≤ r)
    (hdone : (runTrace (mkBench r c url none auth) evs).RunValue.isSome = true) :
    ((runTrace (mkBench r c url none auth) evs).QueriesMade : Int) = r ∧
    ((runTrace (mkBench r c url none auth) evs).Results.length : Int) = r := by
  obtain ⟨hR, hSC, hlen, hle, hiff, hWe, hRV⟩ := runTrace_InvNoTL r c url auth evs h1 h2
  have hstopped := hRV hdone
  have hge := hiff.mp hstopped
  constructor
  · omega
  · rw [hlen]
    omega

/-- Witness for `c4_budget_invariant` at
`targetRequests = 1, concurrency = 1` with one completion. -/
theorem c4_budget_invariant_witness :
    ((1 : Int) ≤ 1 ∧ (1 : Int) ≤ 1 ∧
      (runTrace (mkBench 1 1 "u" none (some ""))
        [Event.complete 0 (RCode.num 200)]).RunValue.isSome = true) ∧
    (((runTrace (mkBench 1 1 "u" none (some ""))
        [Event.complete 0 (RCode.num 200)]).QueriesMade : Int) = 1 ∧
     ((runTrace (mkBench 1 1 "u" none (some ""))
        [Event.complete 0 (RCode.num 200)]).Results.length : Int) = 1) :=
  ⟨⟨by decide, by decide, by decide⟩,
   c4_budget_invariant 1 1 "u" (some "") [Event.complete 0 (RCode.num 200)]
     (by decide) (by decide) (by decide)⟩

/-- Claim C5, counterexample: with `targetRequests = 0 < 1` and
`concurrency = 1` the run starts and DOES dispatch a request — no
configuration error is raised anywhere (`Bench.__init__` and
`Bench.run` perform no validation at all). -/
theorem c5_counterexample :
    (run (mkBench 0 1 "u" none (some ""))).QueriesMade = 1 ∧
    (run (mkBench 0 1 "u" none (some ""))).Results.length = 1 := by
  decide

/-- Claim C5 (amended): no precondition validation exists and no
configuration error is possible — `run()` always proceeds.  With
`concurrency < 1` nothing is dispatched (and the run future is never
resolved at startup); with `targetRequests < 1` and `concurrency ≥ 1`
the fan-out still dispatches one request per slot and stops
immediately. -/
theorem c5_no_validation (r c : Int) (url : String) (auth : Option String) :
    (c < 1 → (run (mkBench r c url none auth)).QueriesMade = 0 ∧
             (run (mkBench r c url none auth)).RunValue = none) ∧
    (r < 1 → 1 ≤ c → (run (mkBench r c url none auth)).QueriesMade = c.toNat ∧
             (run (mkBench r c url none auth)).Stopped = true) := by
  constructor
  · intro hc
    have hAg : (mkBench r c url none auth).Agents = [] := by
      show List.range c.toNat = []
      have h0 : c.toNat = 0 := by omega
      rw [h0]
      rfl
    have hrun : run (mkBench r c url none auth) = mkBench r c url none auth := by
      unfold run
      rw [runSetup_none _ rfl, makeRequests_go _ _ rfl, hAg, List.foldl_nil]
    rw [hrun]
    exact ⟨rfl, rfl⟩
  · intro hr hc
    have hrun : run (mkBench r c url none auth)
        = (List.range c.toNat).foldl dispatchOne (mkBench r c url none auth) := by
      unfold run
      rw [runSetup_none _ rfl, makeRequests_go _ _ rfl]
      rfl
    constructor
    · rw [hrun, foldl_dispatchOne_QueriesMade, List.length_range]
      show 0 + c.toNat = c.toNat
      omega
    · rw [hrun]
      obtain ⟨n, hn⟩ : ∃ n, c.toNat = n + 1 := ⟨c.toNat - 1, by omega⟩
      have hstop : (dispatchOne (mkBench r c url none auth) 0).Stopped = true := by
        have hcond : ((dispatchCore (mkBench r c url none auth) 0).QueriesMade : Int)
            ≥ (dispatchCore (mkBench r c url none auth) 0).Requests := by
          show ((0 + 1 : Nat) : Int) ≥ r
          push_cast
          omega
        unfold dispatchOne
        rw [if_pos hcond]
        exact stop_Stopped _
      rw [hn, List.range_succ_eq_map, List.foldl_cons]
      exact foldl_dispatchOne_pres (fun b => b.Stopped = true)
        dispatchOne_Stopped_true _ _ hstop

/-- Witness for `c5_no_validation` at `concurrency = 0` (first part)
and at `targetRequests = 0, concurrency = 2` (second part). -/
theorem c5_no_validation_witness :
    ((0 : Int) < 1 ∧
      ((run (mkBench 5 0 "u" none (some ""))).QueriesMade = 0 ∧
       (run (mkBench 5 0 "u" none (some ""))).RunValue = none)) ∧
    ((0 : Int) < 1 ∧ (1 : Int) ≤ 2 ∧
      ((run (mkBench 0 2 "u" none (some ""))).QueriesMade = (2 : Int).toNat ∧
       (run (mkBench 0 2 "u" none (some ""))).Stopped = true)) :=
  ⟨⟨by decide, (c5_no_validation 5 0 "u" (some "")).1 (by decide)⟩,
   ⟨by decide, by decide, (c5_no_validation 0 2 "u" (some "")).2 (by decide) (by decide)⟩⟩

/-- Claim C6, counterexample: after `run()` with
`requests = 2, concurrency = 2` the store already holds 2 entries even
though zero completions have been delivered (the append happens in the
dispatch step, not in the completion handler); and when the two
completions arrive out of order (request 1 with code 201 first, then
request 0 with code 200), the store order is dispatch order
`[200, 201]`, not completion order `[201, 200]`. -/
theorem c6_counterexample :
    (run (mkBench 2 2 "u" none (some ""))).Results.length = 2 ∧
    (runTrace (mkBench 2 2 "u" none (some ""))
      [Event.complete 1 (RCode.num 201), Event.complete 0 (RCode.num 200)]).Results.map
        Result.Code = [RCode.num 200, RCode.num 201] := by
  decide

/-- Claim C6 (amended): the store is extended only by the dispatch
step — one append per issued query, at dispatch time — and the `j`-th
issued query owns the `j`-th store entry, so store order is dispatch
order; the completion handler only mutates the already-stored `Result`
in place. -/
theorem c6_store_order_is_dispatch_order (r c : Int) (url : String) (tl : Option Int)
    (auth : Option String) (evs : List Event) :
    (runTrace (mkBench r c url tl auth) evs).Results.length =
      (runTrace (mkBench r c url tl auth) evs).Queries.length ∧
    ∀ (j : Nat) (q : Query),
      (runTrace (mkBench r c url tl auth) evs).Queries.get? j = some q → q.resultIdx = j := by
  have hinit : StoreShape (mkBench r c url tl auth) := by
    refine ⟨rfl, ?_⟩
    intro j q hq
    exact Option.noConfusion hq
  exact runTrace_StoreShape (mkBench r c url tl auth) evs hinit

/-- Witness for `c6_store_order_is_dispatch_order`: the second query
of the `requests = 2, concurrency = 2` run owns store entry 1. -/
theorem c6_store_order_witness :
    (runTrace (mkBench 2 2 "u" none (some "")) []).Queries.get? 1 =
      some { resultIdx := 1, agent := 1, headersAuth := some "", completed := false } ∧
    ({ resultIdx := 1, agent := 1, headersAuth := some "", completed := false } : Query).resultIdx
      = 1 :=
  ⟨by decide,
   (c6_store_order_is_dispatch_order 2 2 "u" none (some "") []).2 1 _ (by decide)⟩

/-- Claim C7: when a (truthy) time limit `t` is configured, `run()`
overrides the dispatch budget with the sentinel `5000` and arms an
active deadline timer with delay `t`; firing that timer runs `stop()`
after deactivating the timer, and `stop()` cancels a still-active
timer. -/
theorem c7_timelimit (r c : Int) (url : String) (auth : Option String) (t : Int)
    (b : BenchState) (ht : 0 < t)
    (hb : b.StopCall = some { delay := t, active := true }) :
    (run (mkBench r c url (some t) auth)).Requests = 5000 ∧
    (runSetup (mkBench r c url (some t) auth)).StopCall
      = some { delay := t, active := true } ∧
    timerFire b = stop { b with StopCall := some { delay := t, active := false } } ∧
    (stop b).StopCall = some { delay := t, active := false } := by
  have ht0 : t ≠ 0 := by omega
  have hsetup := runSetup_some (mkBench r c url (some t) auth) t rfl ht0
  refine ⟨?_, ?_, ?_, ?_⟩
  · unfold run
    rw [hsetup, makeRequests_go _ _ rfl,
        foldl_dispatchOne_proj BenchState.Requests dispatchOne_Requests]
  · rw [hsetup]
  · unfold timerFire
    rw [hb]
    rfl
  · exact stop_StopCall_cancel b t hb

/-- Witness for `c7_timelimit` at `t = 9` with the armed startup state
as the concrete `b`. -/
theorem c7_timelimit_witness :
    ((0 : Int) < 9 ∧
      (runSetup (mkBench 1 1 "u" (some 9) (some ""))).StopCall
        = some { delay := 9, active := true }) ∧
    (run (mkBench 1 1 "u" (some 9) (some ""))).Requests = 5000 :=
  ⟨⟨by decide, by decide⟩,
   (c7_timelimit 1 1 "u" (some "") 9 (runSetup (mkBench 1 1 "u" (some 9) (some "")))
      (by decide) (by decide)).1⟩

/-- Claim C8, counterexample: invoked through `run_test` (as `main`
does) with no auth supplied, the `Authorization` value stored in the
headers and stamped on the issued request is `None`, not the empty
string — `run_test`'s own default is `None` and it bypasses
`Bench.__init__`'s `auth=""` default. -/
theorem c8_counterexample :
    (run_test 1 1 "u" none none).Queries.map Query.headersAuth = [none] ∧
    (run_test 1 1 "u" none none).HeaderAuth ≠ some "" := by
  decide

/-- Claim C8 (amended): every issued request carries exactly the
`Authorization` value the `Bench` was constructed with; when the
invoking layer (`run_test` / `main`) supplies no auth, that value is
`None` rather than the empty string. -/
theorem c8_auth_header :
    (∀ (r c : Int) (url : String) (tl : Option Int) (auth : Option String)
       (evs : List Event) (q : Query),
       q ∈ (runTrace (mkBench r c url tl auth) evs).Queries → q.headersAuth = auth) ∧
    (∀ (r c : Int) (url : String), (run_test r c url none none).HeaderAuth = none) := by
  constructor
  · intro r c url tl auth evs q hq
    have hinit : AuthInv auth (mkBench r c url tl auth) := by
      refine ⟨rfl, ?_⟩
      intro q2 hq2
      exact absurd hq2 (List.not_mem_nil q2)
    exact (runTrace_AuthInv auth (mkBench r c url tl auth) evs hinit).2 q hq
  · intro r c url
    have hinit : AuthInv none (mkBench r c url none none) := by
      refine ⟨rfl, ?_⟩
      intro q2 hq2
      exact absurd hq2 (List.not_mem_nil q2)
    exact (run_AuthInv none (mkBench r c url none none) hinit).1

/-- Witness for `c8_auth_header`: the single query of a
`requests = 1, concurrency = 1` run with auth `"a"` carries
`Authorization = "a"`. -/
theorem c8_auth_header_witness :
    ({ resultIdx := 0, agent := 0, headersAuth := some "a", completed := false } : Query)
      ∈ (runTrace (mkBench 1 1 "u" none (some "a")) []).Queries ∧
    ({ resultIdx := 0, agent := 0, headersAuth := some "a", completed := false } : Query).headersAuth
      = some "a" :=
  ⟨by decide,
   c8_auth_header.1 1 1 "u" none (some "a") [] _ (by decide)⟩

/-- Claim C9: `len(Results) == QueriesMade` — each dispatch appends
exactly one `Result` and increments `QueriesMade` by exactly one, and
the equality holds in every reachable state of every run. -/
theorem c9_results_eq_queriesMade :
    (∀ (b : BenchState) (a : Nat),
       (dispatchOne b a).Results.length = b.Results.length + 1 ∧
       (dispatchOne b a).QueriesMade = b.QueriesMade + 1) ∧
    (∀ (r c : Int) (url : String) (tl : Option Int) (auth : Option String)
       (evs : List Event),
       (runTrace (mkBench r c url tl auth) evs).Results.length =
         (runTrace (mkBench r c url tl auth) evs).QueriesMade) := by
  constructor
  · intro b a
    exact ⟨dispatchOne_Results_length b a, dispatchOne_QueriesMade b a⟩
  · intro r c url tl auth evs
    exact runTrace_LenQM (mkBench r c url tl auth) evs rfl

/-- Claim C10: the `Timeout` flag of every stored `Result` stays
`False` for the whole run — both `_callback` and `_errback` call
`Result.done` without passing `timed_out=True`. -/
theorem c10_no_timeout (r c : Int) (url : String) (tl : Option Int) (auth : Option String)
    (evs : List Event) (res : Result)
    (hres : res ∈ (runTrace (mkBench r c url tl auth) evs).Results) :
    res.Timeout = false := by
  have hinit : TimeoutFree (mkBench r c url tl auth) := by
    intro res2 hres2
    exact absurd hres2 (List.not_mem_nil res2)
  exact runTrace_TimeoutFree (mkBench r c url tl auth) evs hinit res hres

/-- Witness for `c10_no_timeout`: the completed `Result` of a one-shot
run is stored and not marked timed out. -/
theorem c10_no_timeout_witness :
    ({ Started := 0, Finished := 1, Elapsed := 1, Code := RCode.num 200,
       Timeout := false } : Result)
      ∈ (runTrace (mkBench 1 1 "u" none (some ""))
          [Event.complete 0 (RCode.num 200)]).Results ∧
    ({ Started := 0, Finished := 1, Elapsed := 1, Code := RCode.num 200,
       Timeout := false } : Result).Timeout = false :=
  ⟨by decide,
   c10_no_timeout 1 1 "u" none (some "") [Event.complete 0 (RCode.num 200)] _ (by decide)⟩

end PyBench
